import Mathlib

/-
Verification of the file-transfer server/client (src/server.py, src/client.py).

Shallow embedding conventions:
* a socket's incoming byte stream is a `List Nat` (the exact bytes the peer
  sends before closing); `recv n` delivers the next `min n remaining` bytes
  and delivers the empty chunk exactly at end-of-stream (peer closed);
* text lines are `List Char` streams (the payloads are ASCII in the protocol);
* Python's unbounded `int` is `Int`; sizes read from the wire may be negative;
* the server's storage directory is an association list filename ↦ contents;
* observable actions of one `handle_client` loop iteration (control-channel
  sends, data-channel bind/listen/accept) are recorded as an `Event` trace in
  program order; the data thread is started and immediately joined in the
  source (server.py lines 111-116, 146-151), so the sequential trace is exact;
* whether the data-channel `accept` succeeds within its 10-second timeout, and
  which bytes the data peer then sends, are environment inputs (`DataOutcome`).
-/

/-- Configured chunk size (server.py line 11, client.py line 8). -/
def CHUNK_SIZE : Nat := 4096

/-- Fixed data-channel port (server.py line 9). -/
def DATA_PORT : Nat := 5002

/-- Whitespace as recognized by Python `str.split()` / `str.strip()` on
ASCII text: space, tab, newline, carriage return, vertical tab, form feed. -/
def pyIsSpace (c : Char) : Bool :=
  c = ' ' || c = '\t' || c = '\n' || c = '\r' || c = Char.ofNat 11 || c = Char.ofNat 12

/-- Python `str.strip()` on a character list: drop leading and trailing
whitespace. -/
def pyStrip (cs : List Char) : List Char :=
  ((cs.dropWhile pyIsSpace).reverse.dropWhile pyIsSpace).reverse

/-- Accumulator pass of Python `str.split()` (no separator argument): split on
runs of whitespace, producing no empty tokens. -/
def pySplitChars : List Char → List Char → List String
  | [], acc => if acc.isEmpty then [] else [String.mk acc.reverse]
  | c :: rest, acc =>
    if pyIsSpace c then
      if acc.isEmpty then pySplitChars rest []
      else String.mk acc.reverse :: pySplitChars rest []
    else pySplitChars rest (c :: acc)

/-- Python `str.split()` with no arguments, as used on command lines
(server.py line 97). -/
def pySplit (s : String) : List String :=
  pySplitChars s.data []

/-- Decimal digit run to a number; `none` on a non-digit. -/
def parseDigitsAux : List Char → Nat → Option Nat
  | [], acc => some acc
  | c :: rest, acc =>
    if c.isDigit then parseDigitsAux rest (acc * 10 + (c.toNat - 48)) else none

/-- Nonempty decimal digit run to a number. -/
def parseDigits : List Char → Option Nat
  | [] => none
  | cs => parseDigitsAux cs 0

/-- Python `int(s)` on a decimal string (server.py line 103): optional
whitespace, an optional sign, then decimal digits; `none` models the
`ValueError` raised on anything else. -/
def pythonInt (s : String) : Option Int :=
  match pyStrip s.data with
  | '-' :: rest => (parseDigits rest).map (fun n => -(n : Int))
  | '+' :: rest => (parseDigits rest).map (fun n => (n : Int))
  | cs => (parseDigits cs).map (fun n => (n : Int))

/-- Byte-at-a-time line accumulation of `recv_line` (server.py lines 16-28,
client.py lines 14-26): the loop `recv`s one byte at a time until the buffer
contains a newline or `recv` returns the empty chunk (EOF).  Returns the
accumulated buffer and whether EOF was hit before any newline was seen. -/
def recvLineRaw : List Char → List Char × Bool
  | [] => ([], true)
  | c :: rest =>
    if c = '\n' then ([c], false)
    else
      let r := recvLineRaw rest
      (c :: r.1, r.2)

/-- Whether the stream ends before a newline is seen by `recv_line`. -/
def eofBeforeNewline (stream : List Char) : Bool :=
  (recvLineRaw stream).2

/-- The `recv_line` helper (server.py lines 16-28, client.py lines 14-26):
accumulate bytes until a newline or EOF, then decode and `strip()`.  The
source returns this string unconditionally — there is no failure path. -/
def recv_line (stream : List Char) : String :=
  String.mk (pyStrip (recvLineRaw stream).1)

/-- Result of the chunked receive loop: final `received` counter, the list of
chunks delivered by successive `recv` calls, and whether the loop ended by a
zero-length read (peer closed early) rather than by reaching the size. -/
structure RecvResult where
  received : Int
  chunks : List (List Nat)
  zeroRead : Bool
deriving DecidableEq

/-- Fuelled chunked receive loop (server.py lines 50-56 upload path, and the
identical client loop in client.py lines 130-138):

    received = 0
    while received < filesize:
        chunk = conn.recv(min(CHUNK_SIZE, filesize - received))
        if not chunk: break
        f.write(chunk); received += len(chunk)

`avail` is the byte stream the peer sends before closing, so one `recv n`
delivers `avail.take n` (empty exactly at EOF).  Inside the loop
`filesize - received ≥ 1`, so `(filesize - received).toNat` agrees with the
Python `int` subtraction.  Each recursive call consumes at least one byte of
`avail`, so fuel `avail.length + 1` is never exhausted (the fuel-0 branch is
unreachable from `recvFileLoop`). -/
def recvFileLoopAux : Nat → List Nat → Int → Int → RecvResult
  | 0, _, _, received => ⟨received, [], false⟩
  | fuel + 1, avail, filesize, received =>
    if received < filesize then
      let req := min CHUNK_SIZE (filesize - received).toNat
      let chunk := avail.take req
      if chunk.length = 0 then
        ⟨received, [], true⟩
      else
        let r := recvFileLoopAux fuel (avail.drop req) filesize (received + (chunk.length : Int))
        ⟨r.received, chunk :: r.chunks, r.zeroRead⟩
    else
      ⟨received, [], false⟩

/-- The chunked receive loop run from `received = 0` on stream `avail` with
declared size `filesize`. -/
def recvFileLoop (avail : List Nat) (filesize : Int) : RecvResult :=
  recvFileLoopAux (avail.length + 1) avail filesize 0

/-- The server's storage directory: an association list filename ↦ contents. -/
abbrev Storage : Type := List (String × List Nat)

/-- Writing a file with `open(path, 'wb')` (server.py line 49): create or
truncate, then the received bytes become the file's contents. -/
def setFile (storage : Storage) (name : String) (contents : List Nat) : Storage :=
  (name, contents) :: List.filter (fun p => p.1 != name) storage

/-- Observable actions of the server while handling one command, in program
order. `sendLine s` is `conn.sendall` of `s` plus a newline on the control
connection; `bindListen p` is bind+listen on data port `p`; `acceptOk` /
`acceptTimeout` is the outcome of the data-socket `accept` with its
10-second timeout; `sendData bs` is the data-channel send loop emitting the
file bytes `bs` (in CHUNK_SIZE pieces, server.py lines 65-73). -/
inductive Event where
  | sendLine (line : String)
  | bindListen (port : Nat)
  | acceptOk
  | acceptTimeout
  | sendData (bytes : List Nat)
deriving DecidableEq

/-- Environment input for one data-channel rendezvous: the `accept` either
times out (10 s, server.py line 38) or a peer connects and, for an upload,
sends `peerBytes` before closing. -/
inductive DataOutcome where
  | timeout
  | connected (peerBytes : List Nat)
deriving DecidableEq

/-- How one iteration of the `handle_client` loop ends: `next` returns to
awaiting the next command, `closed` leaves the loop normally (QUIT or empty
line), `crashed` is an uncaught exception reaching the blanket handler at
server.py line 183 — the session is torn down with no further sends. -/
inductive StepResult where
  | next
  | closed
  | crashed
deriving DecidableEq

/-- The `handle_data_connection` function (server.py lines 30-84): bind and
listen on `DATA_PORT`, `accept` with a 10-second timeout, then run the
transfer.  `socket.timeout` and any other exception are caught inside this
function (lines 81-84), so it never propagates an error to its caller; on
timeout nothing is transferred and no file is touched.  For a download the
source re-reads the file; if the name has vanished the `open` raises and is
swallowed by the blanket handler (no bytes sent). -/
def handle_data_connection (storage : Storage) (operation filename : String)
    (filesize : Int) (dataOut : DataOutcome) : List Event × Storage :=
  match dataOut with
  | DataOutcome.timeout => ([Event.bindListen DATA_PORT, Event.acceptTimeout], storage)
  | DataOutcome.connected peerBytes =>
    if operation = "UPLOAD" then
      let r := recvFileLoop peerBytes filesize
      ([Event.bindListen DATA_PORT, Event.acceptOk], setFile storage filename r.chunks.flatten)
    else if operation = "DOWNLOAD" then
      match List.lookup filename storage with
      | some contents =>
        ([Event.bindListen DATA_PORT, Event.acceptOk, Event.sendData contents], storage)
      | none => ([Event.bindListen DATA_PORT, Event.acceptOk], storage)
    else ([Event.bindListen DATA_PORT, Event.acceptOk], storage)

/-- One iteration of the `handle_client` command loop (server.py lines
91-181), given the received command line (already `strip()`ed by
`recv_line`), the data-channel environment outcome, and the line the client
sends where the download path reads `READY`.  Produces the event trace, how
the iteration ends, and the updated storage.

Faithful points: an empty line breaks the loop (line 94); `parts[0]` on a
whitespace-only line raises `IndexError` → `crashed`; for UPLOAD, missing
`parts[1]`/`parts[2]` or a non-integer size raise before anything is sent
(lines 102-103 precede the `OK` send of line 108) → `crashed` with no events;
`DONE` is sent unconditionally after the data thread is joined (lines 119,
154), regardless of timeout or short transfer. -/
def handleCommand (storage : Storage) (cmdLine : String) (dataOut : DataOutcome)
    (readyLine : String) : List Event × StepResult × Storage :=
  if cmdLine = "" then ([], StepResult.closed, storage)
  else
    match pySplit cmdLine with
    | [] => ([], StepResult.crashed, storage)
    | command :: rest =>
      if command = "UPLOAD" then
        match rest with
        | filename :: sizeStr :: _ =>
          match pythonInt sizeStr with
          | none => ([], StepResult.crashed, storage)
          | some filesize =>
            let d := handle_data_connection storage "UPLOAD" filename filesize dataOut
            (Event.sendLine ("OK " ++ toString DATA_PORT) :: d.1 ++ [Event.sendLine "DONE"],
             StepResult.next, d.2)
        | _ => ([], StepResult.crashed, storage)
      else if command = "DOWNLOAD" then
        match rest with
        | filename :: _ =>
          match List.lookup filename storage with
          | none => ([Event.sendLine "ERROR FileNotFound"], StepResult.next, storage)
          | some contents =>
            if readyLine = "READY" then
              let d := handle_data_connection storage "DOWNLOAD" filename
                (contents.length : Int) dataOut
              (Event.sendLine ("OK " ++ toString contents.length ++ " " ++ toString DATA_PORT)
                 :: d.1 ++ [Event.sendLine "DONE"],
               StepResult.next, d.2)
            else
              ([Event.sendLine ("OK " ++ toString contents.length ++ " " ++ toString DATA_PORT)],
               StepResult.next, storage)
        | _ => ([], StepResult.crashed, storage)
      else if command = "LIST" then
        (Event.sendLine "OK" :: List.map (fun p => Event.sendLine p.1) storage
           ++ [Event.sendLine "DONE"],
         StepResult.next, storage)
      else if command = "QUIT" then
        ([Event.sendLine "OK"], StepResult.closed, storage)
      else
        ([Event.sendLine "ERROR UnknownCommand"], StepResult.next, storage)

/-- Bytes delivered by one `recv` are bounded by the request. -/
theorem take_length_le_req (avail : List Nat) (req : Nat) :
    (avail.take req).length ≤ req := by
  simp [List.length_take]

theorem recvFileLoopAux_received_le (fuel : Nat) :
    ∀ (avail : List Nat) (filesize received : Int),
      avail.length < fuel → received ≤ filesize →
      (recvFileLoopAux fuel avail filesize received).received ≤ filesize := by
  induction fuel with
  | zero => intro avail fs received hf _; omega
  | succ fuel ih =>
    intro avail fs received hf h
    simp only [recvFileLoopAux]
    split
    · rename_i hlt
      split
      · exact h
      · rename_i hc
        have h1 : (avail.take (min CHUNK_SIZE (fs - received).toNat)).length
            ≤ (fs - received).toNat := le_trans (take_length_le_req _ _) (min_le_right _ _)
        have h2 : 1 ≤ min CHUNK_SIZE (fs - received).toNat := by
          rcases Nat.eq_zero_or_pos (min CHUNK_SIZE (fs - received).toNat) with h0 | h0
          · exfalso; apply hc; simp [h0]
          · exact h0
        have h3 : 1 ≤ avail.length := by
          rcases Nat.eq_zero_or_pos avail.length with h0 | h0
          · exfalso; apply hc; simp [List.length_take, h0]
          · exact h0
        have h4 : (avail.drop (min CHUNK_SIZE (fs - received).toNat)).length < fuel := by
          simp only [List.length_drop]; omega
        have h5 : received + ((avail.take (min CHUNK_SIZE (fs - received).toNat)).length : Int)
            ≤ fs := by omega
        exact ih _ fs _ h4 h5
    · exact h

theorem recvFileLoopAux_complete (fuel : Nat) :
    ∀ (avail : List Nat) (filesize received : Int),
      avail.length < fuel → received ≤ filesize →
      (recvFileLoopAux fuel avail filesize received).zeroRead = false →
      (recvFileLoopAux fuel avail filesize received).received = filesize := by
  induction fuel with
  | zero => intro avail fs received hf _ _; omega
  | succ fuel ih =>
    intro avail fs received hf h hz
    simp only [recvFileLoopAux] at hz ⊢
    split at hz
    · rename_i hlt
      split at hz
      · simp at hz
      · rename_i hc
        have h1 : (avail.take (min CHUNK_SIZE (fs - received).toNat)).length
            ≤ (fs - received).toNat := le_trans (take_length_le_req _ _) (min_le_right _ _)
        have h2 : 1 ≤ min CHUNK_SIZE (fs - received).toNat := by
          rcases Nat.eq_zero_or_pos (min CHUNK_SIZE (fs - received).toNat) with h0 | h0
          · exfalso; apply hc; simp [h0]
          · exact h0
        have h3 : 1 ≤ avail.length := by
          rcases Nat.eq_zero_or_pos avail.length with h0 | h0
          · exfalso; apply hc; simp [List.length_take, h0]
          · exact h0
        have h4 : (avail.drop (min CHUNK_SIZE (fs - received).toNat)).length < fuel := by
          simp only [List.length_drop]; omega
        have h5 : received + ((avail.take (min CHUNK_SIZE (fs - received).toNat)).length : Int)
            ≤ fs := by omega
        simp only [if_pos hlt, if_neg hc]
        exact ih _ fs _ h4 h5 hz
    · rename_i hlt
      simp only [if_neg hlt]
      omega

theorem recvFileLoopAux_chunk_le (fuel : Nat) :
    ∀ (avail : List Nat) (filesize received : Int),
      ∀ c ∈ (recvFileLoopAux fuel avail filesize received).chunks,
        c.length ≤ CHUNK_SIZE := by
  induction fuel with
  | zero => intro avail fs received c hc; simp [recvFileLoopAux] at hc
  | succ fuel ih =>
    intro avail fs received c hc
    simp only [recvFileLoopAux] at hc
    split at hc
    · split at hc
      · simp at hc
      · simp only [List.mem_cons] at hc
        rcases hc with h | h
        · subst h
          exact le_trans (take_length_le_req _ _) (min_le_left _ _)
        · exact ih _ fs _ c h
    · simp at hc

theorem recvFileLoopAux_received_eq (fuel : Nat) :
    ∀ (avail : List Nat) (filesize received : Int),
      (recvFileLoopAux fuel avail filesize received).received
        = received + ((recvFileLoopAux fuel avail filesize received).chunks.flatten.length : Int) := by
  induction fuel with
  | zero => intro avail fs received; simp [recvFileLoopAux]
  | succ fuel ih =>
    intro avail fs received
    simp only [recvFileLoopAux]
    split
    · split
      · simp
      · simp only [List.flatten_cons, List.length_append]
        rw [ih]
        push_cast
        ring
    · simp

/-- Taking a list's own truncated length reproduces the truncation. -/
theorem take_length_take {A : Type} (l : List A) (k : Nat) :
    l.take ((l.take k).length) = l.take k := by
  rw [List.length_take]
  rcases le_total k l.length with h | h
  · rw [min_eq_left h]
  · rw [min_eq_right h, List.take_of_length_le h, List.take_length]

theorem recvFileLoopAux_flatten_take (fuel : Nat) :
    ∀ (avail : List Nat) (filesize received : Int),
      ∃ k, (recvFileLoopAux fuel avail filesize received).chunks.flatten = avail.take k := by
  induction fuel with
  | zero => intro avail fs received; exact ⟨0, by simp [recvFileLoopAux]⟩
  | succ fuel ih =>
    intro avail fs received
    simp only [recvFileLoopAux]
    split
    · split
      · exact ⟨0, by simp⟩
      · obtain ⟨k, hk⟩ := ih (avail.drop (min CHUNK_SIZE (fs - received).toNat)) fs
          (received + ((avail.take (min CHUNK_SIZE (fs - received).toNat)).length : Int))
        refine ⟨min CHUNK_SIZE (fs - received).toNat + k, ?_⟩
        simp only [List.flatten_cons]
        rw [hk, List.take_add]
    · exact ⟨0, by simp⟩

theorem recvFileLoopAux_partial_le (fuel : Nat) :
    ∀ (avail : List Nat) (filesize received : Int),
      received ≤ filesize →
      ∀ k, received
          + (((recvFileLoopAux fuel avail filesize received).chunks.take k).flatten.length : Int)
        ≤ filesize := by
  induction fuel with
  | zero => intro avail fs received h k; simp [recvFileLoopAux, h]
  | succ fuel ih =>
    intro avail fs received h k
    simp only [recvFileLoopAux]
    split
    · rename_i hlt
      split
      · simp [h]
      · rename_i hc
        cases k with
        | zero => simp [h]
        | succ k =>
          simp only [List.take_succ_cons, List.flatten_cons, List.length_append]
          have h1 : (avail.take (min CHUNK_SIZE (fs - received).toNat)).length
              ≤ (fs - received).toNat := le_trans (take_length_le_req _ _) (min_le_right _ _)
          have h5 : received + ((avail.take (min CHUNK_SIZE (fs - received).toNat)).length : Int)
              ≤ fs := by omega
          have := ih (avail.drop (min CHUNK_SIZE (fs - received).toNat)) fs
            (received + ((avail.take (min CHUNK_SIZE (fs - received).toNat)).length : Int)) h5 k
          push_cast at this ⊢
          omega
    · simp [h]

theorem recvFileLoopAux_flatten_all (fuel : Nat) :
    ∀ (avail : List Nat) (filesize received : Int),
      avail.length < fuel → received + (avail.length : Int) < filesize →
      (recvFileLoopAux fuel avail filesize received).chunks.flatten = avail := by
  induction fuel with
  | zero => intro avail fs received hf _; omega
  | succ fuel ih =>
    intro avail fs received hf h
    have hlt : received < fs := by
      have : (0 : Int) ≤ (avail.length : Int) := Int.ofNat_nonneg _
      omega
    simp only [recvFileLoopAux, if_pos hlt]
    cases havail : avail with
    | nil =>
      simp
    | cons b bs =>
      have h2 : 1 ≤ min CHUNK_SIZE (fs - received).toNat := by
        have : (1 : Int) ≤ fs - received := by omega
        have : 1 ≤ (fs - received).toNat := by omega
        simp only [CHUNK_SIZE]
        omega
      have h3 : (avail.take (min CHUNK_SIZE (fs - received).toNat)).length ≠ 0 := by
        rw [havail]
        simp [List.length_take]
        omega
      rw [← havail]
      rw [if_neg h3]
      simp only [List.flatten_cons]
      have h4 : (avail.drop (min CHUNK_SIZE (fs - received).toNat)).length < fuel := by
        simp only [List.length_drop]
        rw [havail] at hf ⊢
        simp only [List.length_cons] at hf ⊢
        omega
      have h5 : (avail.take (min CHUNK_SIZE (fs - received).toNat)).length
            + (avail.drop (min CHUNK_SIZE (fs - received).toNat)).length = avail.length := by
        simp [List.length_take, List.length_drop]
        omega
      have h6 : (received + ((avail.take (min CHUNK_SIZE (fs - received).toNat)).length : Int))
            + ((avail.drop (min CHUNK_SIZE (fs - received).toNat)).length : Int) < fs := by
        omega
      rw [ih _ fs _ h4 h6]
      exact List.take_append_drop _ _

theorem recvFileLoop_nonpos (avail : List Nat) (filesize : Int) (h : filesize ≤ 0) :
    recvFileLoop avail filesize = ⟨0, [], false⟩ := by
  simp only [recvFileLoop, recvFileLoopAux, if_neg (not_lt.mpr h)]

theorem recvLineRaw_no_newline (stream : List Char) (h : '\n' ∉ stream) :
    recvLineRaw stream = (stream, true) := by
  induction stream with
  | nil => rfl
  | cons c rest ih =>
    simp only [List.mem_cons, not_or] at h
    have hc : ¬ c = '\n' := fun hh => h.1 hh.symm
    simp only [recvLineRaw, if_neg hc, ih h.2]

/-- On a rendezvous timeout nothing is transferred: the data thread logs and
returns, leaving storage untouched. -/
theorem hdc_timeout_eq (storage : Storage) (op fn : String) (fs : Int) :
    handle_data_connection storage op fn fs DataOutcome.timeout
      = ([Event.bindListen DATA_PORT, Event.acceptTimeout], storage) := rfl

/-- The data thread always binds and listens first. -/
theorem hdc_head_bind (storage : Storage) (op fn : String) (fs : Int) (d : DataOutcome) :
    ∃ t, (handle_data_connection storage op fn fs d).1 = Event.bindListen DATA_PORT :: t := by
  cases d with
  | timeout => exact ⟨[Event.acceptTimeout], rfl⟩
  | connected peer =>
    simp only [handle_data_connection]
    by_cases h1 : op = "UPLOAD"
    · rw [if_pos h1]; exact ⟨[Event.acceptOk], rfl⟩
    · rw [if_neg h1]
      by_cases h2 : op = "DOWNLOAD"
      · rw [if_pos h2]
        cases List.lookup fn storage with
        | none => exact ⟨[Event.acceptOk], rfl⟩
        | some contents => exact ⟨[Event.acceptOk, Event.sendData contents], rfl⟩
      · rw [if_neg h2]; exact ⟨[Event.acceptOk], rfl⟩

/-- A successful rendezvous never records a timeout. -/
theorem hdc_connected_no_timeout (storage : Storage) (op fn : String) (fs : Int)
    (peer : List Nat) :
    Event.acceptTimeout ∉ (handle_data_connection storage op fn fs
      (DataOutcome.connected peer)).1 := by
  simp only [handle_data_connection]
  by_cases h1 : op = "UPLOAD"
  · rw [if_pos h1]; simp
  · rw [if_neg h1]
    by_cases h2 : op = "DOWNLOAD"
    · rw [if_pos h2]
      cases List.lookup fn storage with
      | none => simp
      | some contents => simp
    · rw [if_neg h2]; simp

/-- Shape of every possible `handleCommand` outcome: either every recorded
event is a plain control-channel line (no data-channel activity at all), or
the command reached the data phase, in which case the trace is exactly one
announcement line carrying `DATA_PORT`, then the `handle_data_connection`
events, then the unconditional `DONE`, the session continues, and the final
storage is whatever the data thread left. -/
theorem handleCommand_events_structure (storage : Storage) (cmdLine readyLine : String)
    (dataOut : DataOutcome) :
    (∀ e ∈ (handleCommand storage cmdLine dataOut readyLine).1, ∃ s, e = Event.sendLine s) ∨
    (∃ ok op fn fs,
      (ok = "OK " ++ toString DATA_PORT ∨
        ∃ n : Nat, ok = "OK " ++ toString n ++ " " ++ toString DATA_PORT) ∧
      (handleCommand storage cmdLine dataOut readyLine).1 =
        Event.sendLine ok :: (handle_data_connection storage op fn fs dataOut).1
          ++ [Event.sendLine "DONE"] ∧
      (handleCommand storage cmdLine dataOut readyLine).2.1 = StepResult.next ∧
      (handleCommand storage cmdLine dataOut readyLine).2.2 =
        (handle_data_connection storage op fn fs dataOut).2) := by
  by_cases h0 : cmdLine = ""
  · left; intro e he; simp [handleCommand, h0] at he
  · cases hps : pySplit cmdLine with
    | nil => left; intro e he; simp [handleCommand, h0, hps] at he
    | cons command rest =>
      by_cases hU : command = "UPLOAD"
      · cases rest with
        | nil => left; intro e he; simp [handleCommand, h0, hps, hU] at he
        | cons fn rest2 =>
          cases rest2 with
          | nil => left; intro e he; simp [handleCommand, h0, hps, hU] at he
          | cons sz rest3 =>
            cases hpi : pythonInt sz with
            | none => left; intro e he; simp [handleCommand, h0, hps, hU, hpi] at he
            | some fs =>
              right
              refine ⟨"OK " ++ toString DATA_PORT, "UPLOAD", fn, fs, Or.inl rfl, ?_, ?_, ?_⟩ <;>
                simp [handleCommand, h0, hps, hU, hpi]
      · by_cases hD : command = "DOWNLOAD"
        · cases rest with
          | nil => left; intro e he; simp [handleCommand, h0, hps, hU, hD] at he
          | cons fn rest2 =>
            cases hlk : List.lookup fn storage with
            | none =>
              left; intro e he
              simp [handleCommand, h0, hps, hU, hD, hlk] at he
              exact ⟨"ERROR FileNotFound", he⟩
            | some contents =>
              by_cases hR : readyLine = "READY"
              · right
                refine ⟨"OK " ++ toString contents.length ++ " " ++ toString DATA_PORT,
                  "DOWNLOAD", fn, (contents.length : Int),
                  Or.inr ⟨contents.length, rfl⟩, ?_, ?_, ?_⟩ <;>
                  simp [handleCommand, h0, hps, hU, hD, hlk, hR]
              · left; intro e he
                simp [handleCommand, h0, hps, hU, hD, hlk, hR] at he
                exact ⟨_, he⟩
        · by_cases hL : command = "LIST"
          · left; intro e he
            simp [handleCommand, h0, hps, hU, hD, hL] at he
            rcases he with he | ⟨a, -, he⟩ | he
            · exact ⟨"OK", he⟩
            · exact ⟨a, he.symm⟩
            · exact ⟨"DONE", he⟩
          · by_cases hQ : command = "QUIT"
            · left; intro e he
              simp [handleCommand, h0, hps, hU, hD, hL, hQ] at he
              exact ⟨"OK", he⟩
            · left; intro e he
              simp [handleCommand, h0, hps, hU, hD, hL, hQ] at he
              exact ⟨"ERROR UnknownCommand", he⟩

/-- C9: for every (nonnegative) expected size and every incoming byte stream,
the chunked receive loop reads in chunks of at most `CHUNK_SIZE` bytes,
terminates exactly when the running count equals the expected size or a read
returned zero length, and in the short case returns the partial count (equal
to the bytes written) as an ordinary value rather than raising. -/
theorem recv_loop_chunked_termination (avail : List Nat) (filesize : Int)
    (h : 0 ≤ filesize) :
    (∀ c ∈ (recvFileLoop avail filesize).chunks, c.length ≤ CHUNK_SIZE) ∧
    ((recvFileLoop avail filesize).received = filesize ∨
      (recvFileLoop avail filesize).zeroRead = true) ∧
    (recvFileLoop avail filesize).received
      = ((recvFileLoop avail filesize).chunks.flatten.length : Int) := by
  refine ⟨recvFileLoopAux_chunk_le _ _ _ _, ?_, ?_⟩
  · cases hz : (recvFileLoop avail filesize).zeroRead with
    | true => exact Or.inr rfl
    | false =>
      exact Or.inl (recvFileLoopAux_complete _ _ _ _ (Nat.lt_succ_self _) h hz)
  · have := recvFileLoopAux_received_eq (avail.length + 1) avail filesize 0
    simpa using this

/-- C9 witness: a stream of 2 bytes against an expected size of 5: all chunks
bounded, the loop ends by a zero-length read, and the partial count is
returned. -/
theorem recv_loop_chunked_termination_witness :
    (∀ c ∈ (recvFileLoop [1, 2] 5).chunks, c.length ≤ CHUNK_SIZE) ∧
    ((recvFileLoop [1, 2] 5).received = 5 ∨ (recvFileLoop [1, 2] 5).zeroRead = true) ∧
    (recvFileLoop [1, 2] 5).received = ((recvFileLoop [1, 2] 5).chunks.flatten.length : Int) :=
  recv_loop_chunked_termination [1, 2] 5 (by decide)

/-- C10: for every (nonnegative) declared size and every byte stream the peer
sends, the receive loop keeps `received ≤ filesize` after every single read
(each read is bounded by `min CHUNK_SIZE (filesize - received)`), so at most
`filesize` bytes are ever written, and what is written is a prefix of the
peer's stream — surplus bytes beyond the declared size are never read or
stored. -/
theorem recv_loop_bounded (avail : List Nat) (filesize : Int) (h : 0 ≤ filesize) :
    (∀ k, (((recvFileLoop avail filesize).chunks.take k).flatten.length : Int) ≤ filesize) ∧
    (recvFileLoop avail filesize).received ≤ filesize ∧
    (∃ k, (recvFileLoop avail filesize).chunks.flatten = avail.take k) := by
  refine ⟨?_, ?_, recvFileLoopAux_flatten_take _ _ _ _⟩
  · intro k
    have := recvFileLoopAux_partial_le (avail.length + 1) avail filesize 0 h k
    simpa using this
  · exact recvFileLoopAux_received_le _ _ _ _ (Nat.lt_succ_self _) h

/-- C10 witness: a 3-byte stream against declared size 2: every running count
is at most 2 and the stored bytes are a prefix of the stream. -/
theorem recv_loop_bounded_witness :
    (∀ k, (((recvFileLoop [1, 2, 3] 2).chunks.take k).flatten.length : Int) ≤ 2) ∧
    (recvFileLoop [1, 2, 3] 2).received ≤ 2 ∧
    (∃ k, (recvFileLoop [1, 2, 3] 2).chunks.flatten = [1, 2, 3].take k) :=
  recv_loop_bounded [1, 2, 3] 2 (by decide)

/-- C6: on an UPLOAD whose data peer closes before the declared size is
reached, the server still emits `DONE` on the control connection exactly as
for a complete transfer: the trace is the same `OK`/bind/accept/`DONE`
sequence, the session continues, and the short file (all `peer` bytes, fewer
than `filesize`) is stored. -/
theorem short_upload_still_done (storage : Storage) (cmdLine fn sizeStr readyLine : String)
    (filesize : Int) (peer : List Nat)
    (hne : cmdLine ≠ "")
    (hparse : pySplit cmdLine = ["UPLOAD", fn, sizeStr])
    (hint : pythonInt sizeStr = some filesize)
    (hshort : (peer.length : Int) < filesize) :
    handleCommand storage cmdLine (DataOutcome.connected peer) readyLine =
      ([Event.sendLine ("OK " ++ toString DATA_PORT), Event.bindListen DATA_PORT,
        Event.acceptOk, Event.sendLine "DONE"],
       StepResult.next, setFile storage fn peer) := by
  have hall : (recvFileLoop peer filesize).chunks.flatten = peer :=
    recvFileLoopAux_flatten_all _ _ _ _ (Nat.lt_succ_self _) (by simpa using hshort)
  simp [handleCommand, hne, hparse, hint, handle_data_connection, hall]

/-- C6 witness: `UPLOAD f 5` with a peer that sends only 2 bytes: `DONE` is
still the final control line. -/
theorem short_upload_still_done_witness :
    handleCommand [] "UPLOAD f 5" (DataOutcome.connected [9, 9]) "x" =
      ([Event.sendLine ("OK " ++ toString DATA_PORT), Event.bindListen DATA_PORT,
        Event.acceptOk, Event.sendLine "DONE"],
       StepResult.next, setFile [] "f" [9, 9]) :=
  short_upload_still_done [] "UPLOAD f 5" "f" "5" "x" 5 [9, 9]
    (by decide) (by decide) (by decide) (by decide)

/-- C7: a DOWNLOAD naming a file absent from storage yields exactly the
`ERROR FileNotFound` line, no data-channel activity of any kind, an unchanged
storage, and the session returns to awaiting the next command. -/
theorem download_missing_file (storage : Storage) (cmdLine fn readyLine : String)
    (dataOut : DataOutcome)
    (hne : cmdLine ≠ "")
    (hparse : pySplit cmdLine = ["DOWNLOAD", fn])
    (habs : List.lookup fn storage = none) :
    handleCommand storage cmdLine dataOut readyLine =
      ([Event.sendLine "ERROR FileNotFound"], StepResult.next, storage) := by
  simp [handleCommand, hne, hparse, habs]

/-- C7 witness: `DOWNLOAD g` against empty storage. -/
theorem download_missing_file_witness :
    handleCommand [] "DOWNLOAD g" DataOutcome.timeout "" =
      ([Event.sendLine "ERROR FileNotFound"], StepResult.next, ([] : Storage)) :=
  download_missing_file [] "DOWNLOAD g" "g" "" DataOutcome.timeout
    (by decide) (by decide) (by decide)

/-- C8: any command line whose first token is none of UPLOAD, DOWNLOAD, LIST,
QUIT draws exactly `ERROR UnknownCommand`, leaves storage untouched, and the
session stays ready for the next command. -/
theorem unknown_command_reply (storage : Storage) (cmdLine tok readyLine : String)
    (rest : List String) (dataOut : DataOutcome)
    (hne : cmdLine ≠ "")
    (hparse : pySplit cmdLine = tok :: rest)
    (hun : tok ∉ ["UPLOAD", "DOWNLOAD", "LIST", "QUIT"]) :
    handleCommand storage cmdLine dataOut readyLine =
      ([Event.sendLine "ERROR UnknownCommand"], StepResult.next, storage) := by
  have h1 : tok ≠ "UPLOAD" := fun h => hun (by simp [h])
  have h2 : tok ≠ "DOWNLOAD" := fun h => hun (by simp [h])
  have h3 : tok ≠ "LIST" := fun h => hun (by simp [h])
  have h4 : tok ≠ "QUIT" := fun h => hun (by simp [h])
  simp [handleCommand, hne, hparse, h1, h2, h3, h4]

/-- C8 witness: the unknown command `FOO bar`. -/
theorem unknown_command_reply_witness :
    handleCommand [] "FOO bar" DataOutcome.timeout "" =
      ([Event.sendLine "ERROR UnknownCommand"], StepResult.next, ([] : Storage)) :=
  unknown_command_reply [] "FOO bar" "FOO" "" ["bar"] DataOutcome.timeout
    (by decide) (by decide) (by decide)

/-- C1 counterexample: `UPLOAD f 3` whose data connection times out.  The
claim says no `DONE` and no `ERROR` is ever emitted on the control connection
after a data-channel timeout, but the trace ends with `DONE` (sent
unconditionally at server.py line 119 after the data thread is joined). -/
theorem data_timeout_cex :
    handleCommand [] "UPLOAD f 3" DataOutcome.timeout "" =
      ([Event.sendLine "OK 5002", Event.bindListen 5002, Event.acceptTimeout,
        Event.sendLine "DONE"], StepResult.next, ([] : Storage)) := by
  decide

/-- C1 amended: whenever the data-channel accept times out (on UPLOAD, or on
DOWNLOAD after `READY`), the server abandons the transfer — the full trace is
just the announcement, bind/listen and the timeout, storage is untouched and
no `ERROR` line appears — but it still sends `DONE` as the control-channel
acknowledgement, and the session continues. -/
theorem data_timeout_still_sends_done (storage : Storage) (cmdLine readyLine : String)
    (dataOut : DataOutcome)
    (h : Event.acceptTimeout ∈ (handleCommand storage cmdLine dataOut readyLine).1) :
    ∃ ok, (handleCommand storage cmdLine dataOut readyLine).1 =
        [Event.sendLine ok, Event.bindListen DATA_PORT, Event.acceptTimeout,
         Event.sendLine "DONE"] ∧
      (handleCommand storage cmdLine dataOut readyLine).2.1 = StepResult.next ∧
      (handleCommand storage cmdLine dataOut readyLine).2.2 = storage := by
  rcases handleCommand_events_structure storage cmdLine readyLine dataOut with
    hall | ⟨ok, op, fn, fs, -, hev, hres, hst⟩
  · obtain ⟨s, hs⟩ := hall _ h
    exact Event.noConfusion hs
  · cases dataOut with
    | timeout =>
      refine ⟨ok, ?_, hres, ?_⟩
      · rw [hev, hdc_timeout_eq]
        rfl
      · rw [hst, hdc_timeout_eq]
    | connected peer =>
      exfalso
      rw [hev] at h
      simp only [List.mem_cons, List.mem_append, List.mem_singleton] at h
      rcases h with (h | h) | h | h
      · exact Event.noConfusion h
      · exact hdc_connected_no_timeout _ _ _ _ _ h
      · exact Event.noConfusion h
      · simp at h

/-- C1 witness: amended statement instantiated at a concrete timed-out
upload. -/
theorem data_timeout_still_sends_done_witness :
    Event.acceptTimeout ∈ (handleCommand [] "UPLOAD g 4" DataOutcome.timeout "").1 ∧
    ∃ ok, (handleCommand [] "UPLOAD g 4" DataOutcome.timeout "").1 =
        [Event.sendLine ok, Event.bindListen DATA_PORT, Event.acceptTimeout,
         Event.sendLine "DONE"] ∧
      (handleCommand [] "UPLOAD g 4" DataOutcome.timeout "").2.1 = StepResult.next ∧
      (handleCommand [] "UPLOAD g 4" DataOutcome.timeout "").2.2 = ([] : Storage) :=
  ⟨by decide, data_timeout_still_sends_done [] "UPLOAD g 4" "" DataOutcome.timeout (by decide)⟩

/-- C2 counterexample: on `UPLOAD f 3` with a successful rendezvous, the
control-channel `OK 5002` announcing the data port is the FIRST event, and
the data listener is bound and put into listening state only afterwards
(inside the data thread started at server.py line 111, after the `sendall` of
line 108) — so the port is announced while no listener is open on it,
contradicting the claim. -/
theorem announce_before_listen_cex :
    (handleCommand [] "UPLOAD f 3" (DataOutcome.connected [1, 2, 3]) "").1 =
      [Event.sendLine "OK 5002", Event.bindListen 5002, Event.acceptOk,
       Event.sendLine "DONE"] := by
  decide

/-- C2 amended: the order is the reverse of the claim — whenever the data
listener is opened at all, the control-channel `OK` line carrying `DATA_PORT`
has already been sent: the trace is always the announcement immediately
followed by the bind/listen. -/
theorem announce_precedes_listener (storage : Storage) (cmdLine readyLine : String)
    (dataOut : DataOutcome)
    (h : Event.bindListen DATA_PORT ∈ (handleCommand storage cmdLine dataOut readyLine).1) :
    ∃ ok t, (ok = "OK " ++ toString DATA_PORT ∨
        ∃ n : Nat, ok = "OK " ++ toString n ++ " " ++ toString DATA_PORT) ∧
      (handleCommand storage cmdLine dataOut readyLine).1 =
        Event.sendLine ok :: Event.bindListen DATA_PORT :: t := by
  rcases handleCommand_events_structure storage cmdLine readyLine dataOut with
    hall | ⟨ok, op, fn, fs, hok, hev, -, -⟩
  · obtain ⟨s, hs⟩ := hall _ h
    exact Event.noConfusion hs
  · obtain ⟨t, ht⟩ := hdc_head_bind storage op fn fs dataOut
    refine ⟨ok, t ++ [Event.sendLine "DONE"], hok, ?_⟩
    rw [hev, ht]
    simp

/-- C2 witness: amended statement instantiated at a concrete upload. -/
theorem announce_precedes_listener_witness :
    Event.bindListen DATA_PORT ∈ (handleCommand [] "UPLOAD h 2" (DataOutcome.connected [5]) "").1 ∧
    ∃ ok t, (ok = "OK " ++ toString DATA_PORT ∨
        ∃ n : Nat, ok = "OK " ++ toString n ++ " " ++ toString DATA_PORT) ∧
      (handleCommand [] "UPLOAD h 2" (DataOutcome.connected [5]) "").1 =
        Event.sendLine ok :: Event.bindListen DATA_PORT :: t :=
  ⟨by decide, announce_precedes_listener [] "UPLOAD h 2" "" (DataOutcome.connected [5]) (by decide)⟩

/-- C3 counterexample: `UPLOAD f -5` is not rejected: the server acknowledges
with `OK 5002`, runs the data phase (the receive loop transfers zero bytes,
creating an empty file `f`), and emits `DONE` — no validation of
`size >= 0` exists in the code. -/
theorem negative_size_cex :
    handleCommand [] "UPLOAD f -5" (DataOutcome.connected [7, 7, 7]) "" =
      ([Event.sendLine "OK 5002", Event.bindListen 5002, Event.acceptOk,
        Event.sendLine "DONE"], StepResult.next, ([("f", [])] : Storage)) := by
  decide

/-- C3 amended: the server performs no size validation.  An UPLOAD whose
declared size is negative is acknowledged with `OK <data_port>` exactly like
any other; the receive loop's guard `received < filesize` is false at entry,
so zero bytes are read, the destination file is created/truncated to empty,
and `DONE` is emitted. -/
theorem negative_size_accepted (storage : Storage) (cmdLine fn sizeStr readyLine : String)
    (filesize : Int) (peer : List Nat)
    (hne : cmdLine ≠ "")
    (hparse : pySplit cmdLine = ["UPLOAD", fn, sizeStr])
    (hint : pythonInt sizeStr = some filesize)
    (hneg : filesize < 0) :
    handleCommand storage cmdLine (DataOutcome.connected peer) readyLine =
      ([Event.sendLine ("OK " ++ toString DATA_PORT), Event.bindListen DATA_PORT,
        Event.acceptOk, Event.sendLine "DONE"],
       StepResult.next, setFile storage fn []) := by
  have h0 : recvFileLoop peer filesize = ⟨0, [], false⟩ :=
    recvFileLoop_nonpos peer filesize (le_of_lt hneg)
  simp [handleCommand, hne, hparse, hint, handle_data_connection, h0]

/-- C3 witness: amended statement instantiated at `UPLOAD w -2`. -/
theorem negative_size_accepted_witness :
    handleCommand [] "UPLOAD w -2" (DataOutcome.connected [4]) "" =
      ([Event.sendLine ("OK " ++ toString DATA_PORT), Event.bindListen DATA_PORT,
        Event.acceptOk, Event.sendLine "DONE"],
       StepResult.next, setFile [] "w" []) :=
  negative_size_accepted [] "UPLOAD w -2" "w" "-2" "" (-2) [4]
    (by decide) (by decide) (by decide) (by decide)

/-- C4 counterexample: on the stream `HI` that ends (EOF) before any newline,
`recv_line` does not fail: it returns the accumulated bytes as the ordinary
string `"HI"` (server.py lines 22-23 `break` out of the loop and line 28
returns the buffer). -/
theorem recv_line_eof_cex :
    eofBeforeNewline ['H', 'I'] = true ∧ recv_line ['H', 'I'] = "HI" := by
  exact ⟨rfl, rfl⟩

/-- C4 amended: when the byte stream ends before a newline is seen, the
line-reading helper returns the bytes accumulated so far, decoded and
stripped, as a normal string result — there is no ConnectionClosed failure
path. -/
theorem recv_line_eof_returns_partial (stream : List Char) (h : '\n' ∉ stream) :
    recv_line stream = String.mk (pyStrip stream) ∧ eofBeforeNewline stream = true := by
  rw [recv_line, eofBeforeNewline, recvLineRaw_no_newline stream h]
  exact ⟨rfl, rfl⟩

/-- C4 witness: amended statement instantiated at the newline-free stream
`ab`. -/
theorem recv_line_eof_returns_partial_witness :
    recv_line ['a', 'b'] = String.mk (pyStrip ['a', 'b']) ∧
    eofBeforeNewline ['a', 'b'] = true :=
  recv_line_eof_returns_partial ['a', 'b'] (by decide)

/-- C5 counterexample: `UPLOAD f x` — a malformed command whose fault is
local to that one command — does not produce any `ERROR` line: the
`int(parts[2])` at server.py line 103 raises `ValueError`, the blanket
handler at line 183 catches it, and the session is terminated with no events
at all. -/
theorem malformed_upload_cex :
    handleCommand [] "UPLOAD f x" DataOutcome.timeout "" =
      ([], StepResult.crashed, ([] : Storage)) := by
  decide

/-- C5 amended: unknown commands and downloads of missing files are indeed
converted to protocol `ERROR` lines with the session staying alive, but a
malformed UPLOAD — missing or non-integer size argument — raises an uncaught
exception that terminates the whole session with no `ERROR` line sent. -/
theorem local_fault_policy (storage : Storage) (dataOut : DataOutcome)
    (cmdLine fn sizeStr readyLine tok : String) (rest : List String)
    (hne : cmdLine ≠ "") :
    (pySplit cmdLine = ["UPLOAD", fn, sizeStr] → pythonInt sizeStr = none →
      handleCommand storage cmdLine dataOut readyLine = ([], StepResult.crashed, storage)) ∧
    (pySplit cmdLine = ["UPLOAD", fn] →
      handleCommand storage cmdLine dataOut readyLine = ([], StepResult.crashed, storage)) ∧
    (pySplit cmdLine = ["DOWNLOAD", fn] → List.lookup fn storage = none →
      handleCommand storage cmdLine dataOut readyLine =
        ([Event.sendLine "ERROR FileNotFound"], StepResult.next, storage)) ∧
    (pySplit cmdLine = tok :: rest → tok ∉ ["UPLOAD", "DOWNLOAD", "LIST", "QUIT"] →
      handleCommand storage cmdLine dataOut readyLine =
        ([Event.sendLine "ERROR UnknownCommand"], StepResult.next, storage)) := by
  refine ⟨?_, ?_, ?_, ?_⟩
  · intro hparse hbad
    simp [handleCommand, hne, hparse, hbad]
  · intro hparse
    simp [handleCommand, hne, hparse]
  · intro hparse habs
    simp [handleCommand, hne, hparse, habs]
  · intro hparse hun
    have h1 : tok ≠ "UPLOAD" := fun hh => hun (by simp [hh])
    have h2 : tok ≠ "DOWNLOAD" := fun hh => hun (by simp [hh])
    have h3 : tok ≠ "LIST" := fun hh => hun (by simp [hh])
    have h4 : tok ≠ "QUIT" := fun hh => hun (by simp [hh])
    simp [handleCommand, hne, hparse, h1, h2, h3, h4]

/-- C5 witness: amended statement instantiated at the malformed command
`UPLOAD a q` (non-integer size): the session crashes with no ERROR line. -/
theorem local_fault_policy_witness :
    handleCommand [] "UPLOAD a q" DataOutcome.timeout "" =
      ([], StepResult.crashed, ([] : Storage)) :=
  (local_fault_policy [] DataOutcome.timeout "UPLOAD a q" "a" "q" "" "z" []
    (by decide)).1 (by decide) (by decide)
